import Mathlib

set_option autoImplicit false

/-!
Shallow embedding of the priority-queue service of p40pmn/priority-queue.

The service (package `queue`) is a thin layer over a Redis instance.  We model
the Redis state the service touches and each service operation as a pure
function from a store state and a failure schedule to a Go-style result:
the returned value, the returned error (`none` = nil), the store state
afterwards, and the trace of store commands issued.

The failure schedule injects transport failures: entry i of the schedule says
whether the i-th store command issued by the operation fails (`some msg`)
or succeeds (`none`); an exhausted schedule means every further command
succeeds, so the empty schedule `[]` is the failure-free run.

Two variants of the package exist in the repository.  Namespace `Queue`
embeds `src/queue/queue.go` (release flag + JSON/FT-search audit); namespace
`ClearVariant` embeds the second file of `src/unnamed/part_001` (the variant
with the standalone `Clear` and a set-based audit), which is the only source
of the `Clear` operation.
-/

/-- Go `float64` as it matters to this service: `NaN` (which the store's
ZADD rejects) or a finite value, modelled as a rational.  Lower score means
higher priority. -/
inductive Float64 where
  | nan : Float64
  | fin (v : Rat) : Float64
deriving DecidableEq

/-- One entry of a score-ordered set: the pair (member identifier, score). -/
structure Entry where
  member : String
  score : Float64
deriving DecidableEq

/-- Boolean comparison on scores, ascending.  Only finite scores ever reach
the store; `nan` is placed first merely to keep the order total. -/
def Float64.leB : Float64 → Float64 → Bool
  | .nan, _ => true
  | .fin _, .nan => false
  | .fin x, .fin y => decide (x ≤ y)

/-- The sorted-set insertion order of the store: ascending score, ties broken
by the member identifier's natural (lexicographic) order. -/
def entryBefore (a b : Entry) : Bool :=
  match a.score, b.score with
  | .nan, _ => true
  | .fin _, .nan => false
  | .fin x, .fin y => decide (x < y) || (decide (x = y) && decide (a.member ≤ b.member))

/-- Insert an entry into a sorted entry list, keeping it sorted. -/
def insertEntry (e : Entry) : List Entry → List Entry
  | [] => [e]
  | b :: l => if entryBefore e b then e :: b :: l else b :: insertEntry e l

/-- ZADD on one sorted set: upsert the member at its new score (a member
appears at most once; re-adding repositions it). -/
def zaddList (e : Entry) (l : List Entry) : List Entry :=
  insertEntry e (l.filter (fun en => en.member ≠ e.member))

/-- The entries of a queue are listed in non-decreasing score order. -/
def sortedByScore (l : List Entry) : Prop :=
  List.Pairwise (fun a b => Float64.leB a.score b.score = true) l

instance sortedByScore.dec (l : List Entry) : Decidable (sortedByScore l) := by
  unfold sortedByScore; infer_instance

/-- The store commands the service issues, as named in the source. -/
inductive Cmd where
  | zadd (key member : String) (score : Float64)
  | zcard (key : String)
  | zrange (key : String) (start stop : Int)
  | zremrangebyrank (key : String) (start stop : Int)
  | zremrangebyscore (key lo hi : String)
  | zrem (key member : String)
  | zrank (key member : String)
  | setKey (key : String)
  | existsKey (key : String)
  | ftsearch (idx qid mid : String)
  | jsonset (key : String)
  | sadd (key : String) (members : List String)
  | sismember (key member : String)
deriving DecidableEq

/-- Errors the service returns to the caller: a raw store/transport error
(surfaced verbatim, carrying only the store's message), the package's
`ErrQueueEmpty`, and the client's `redis.Nil` sentinel (a nil reply, e.g.
from ZRANK on an absent member). -/
inductive QErr where
  | store (msg : String)
  | queueEmpty
  | redisNil
deriving DecidableEq

/-- A failure schedule: the i-th element says whether the i-th store command
issued fails with the given transport message.  Exhausted = all succeed. -/
abbrev Sched := List (Option String)

/-- Go-style outcome of one service operation over store type σ. -/
structure RunRes (σ : Type) (α : Type) where
  val : α
  err : Option QErr
  store : σ
  trace : List Cmd

def queueKey (id : String) : String := "queue:" ++ id

def releaseKey (id : String) : String := "release:" ++ id

def dequeueKeyOf (uid : String) : String := "dequeue:" ++ uid

def clearKey (id : String) : String := "clear:" ++ id

/-- ms is the member listing of the entries l, which are in ascending-score
order: the shape of every result a dequeue returns. -/
def membersAscending (l : List Entry) (ms : List String) : Prop :=
  sortedByScore l ∧ ms = l.map Entry.member

def idxKey (n : String) : String := "idx:" ++ n

namespace Queue

/-- The audit document a ranked dequeue writes (`dequeueKyToStore` in the
source): the queue identifier and the batch of removed members. -/
structure DequeueDoc where
  id : String
  members : List String
deriving DecidableEq

/-- The Redis state visible to `src/queue/queue.go`.  The three concerns live
under distinct key namespaces (queue:, release:, dequeue:), modelled as three
fields keyed by the identifier under that namespace. -/
structure Store where
  queues : String → List Entry
  released : String → Bool
  docs : List (String × DequeueDoc)

def emptyStore : Store := ⟨fun _ => [], fun _ => false, []⟩

structure EnqueueReq where
  ID : String
  MemberID : String
  Score : Float64

/-- `Enqueue` (queue/queue.go:95): one ZADD on the queue's sorted set, its
error returned as-is.  The store itself rejects a NaN score; no validation
happens in the service. -/
def Enqueue (s : Store) (sched : Sched) (r : EnqueueReq) : RunRes Store Unit :=
  let c0 := Cmd.zadd (queueKey r.ID) r.MemberID r.Score
  match sched.headD none with
  | some e => ⟨(), some (.store e), s, [c0]⟩
  | none =>
    match r.Score with
    | .nan => ⟨(), some (.store "value is not a valid float"), s, [c0]⟩
    | .fin _ => ⟨(), none,
        { s with queues := fun k =>
            if k = r.ID then zaddList ⟨r.MemberID, r.Score⟩ (s.queues k) else s.queues k },
        [c0]⟩

structure SetPriorityReq where
  ID : String
  MemberID : String
  Score : Float64

/-- `SetPriority` (queue/queue.go:238): identical to Enqueue — one ZADD. -/
def SetPriority (s : Store) (sched : Sched) (r : SetPriorityReq) : RunRes Store Unit :=
  Enqueue s sched ⟨r.ID, r.MemberID, r.Score⟩

structure DequeueReq where
  ID : String
  FirstDequeue : Bool
  FirstDequeueNumber : Int
  ReleaseAll : Bool

/-- `dequeueAllMembersByScore` (queue/queue.go:310): ZRANGE 0 -1, then
ZREMRANGEBYSCORE -inf +inf, then SET release:<id> true. -/
def dequeueAllMembersByScore (s : Store) (sched : Sched) (queueID : String) :
    RunRes Store (List String) :=
  let c1 := Cmd.zrange (queueKey queueID) 0 (-1)
  match sched.headD none with
  | some e => ⟨[], some (.store e), s, [c1]⟩
  | none =>
    let members := (s.queues queueID).map Entry.member
    let c2 := Cmd.zremrangebyscore (queueKey queueID) "-inf" "+inf"
    match sched.tail.headD none with
    | some e => ⟨[], some (.store e), s, [c1, c2]⟩
    | none =>
      let s1 : Store := { s with queues := fun k => if k = queueID then [] else s.queues k }
      let c3 := Cmd.setKey (releaseKey queueID)
      match sched.tail.tail.headD none with
      | some e => ⟨[], some (.store e), s1, [c1, c2, c3]⟩
      | none => ⟨members, none,
          { s1 with released := fun k => if k = queueID then true else s1.released k },
          [c1, c2, c3]⟩

/-- `dequeueByRank` (queue/queue.go:347): ZRANGE 0 stop, ZREMRANGEBYRANK
0 stop, then JSONSET of the audit document under a fresh uuid-derived key
(`uid` stands for that random key segment).  Both call sites pass a
non-negative stop. -/
def dequeueByRank (s : Store) (sched : Sched) (queueID : String) (stop : Nat) (uid : String) :
    RunRes Store (List String) :=
  let c1 := Cmd.zrange (queueKey queueID) 0 (stop : Int)
  match sched.headD none with
  | some e => ⟨[], some (.store e), s, [c1]⟩
  | none =>
    let members := ((s.queues queueID).take (stop + 1)).map Entry.member
    let c2 := Cmd.zremrangebyrank (queueKey queueID) 0 (stop : Int)
    match sched.tail.headD none with
    | some e => ⟨[], some (.store e), s, [c1, c2]⟩
    | none =>
      let s1 : Store :=
        { s with queues := fun k => if k = queueID then (s.queues k).drop (stop + 1) else s.queues k }
      let c3 := Cmd.jsonset (dequeueKeyOf uid)
      match sched.tail.tail.headD none with
      | some e => ⟨[], some (.store e), s1, [c1, c2, c3]⟩
      | none => ⟨members, none,
          { s1 with docs :=
              (dequeueKeyOf uid, ⟨queueID, members⟩) ::
                s1.docs.filter (fun kd => kd.1 ≠ dequeueKeyOf uid) },
          [c1, c2, c3]⟩

/-- `Dequeue` (queue/queue.go:134): ZCARD first; an empty queue returns an
empty result with nil error; otherwise release-all or a ranked dequeue with
stop = N-1 when FirstDequeue and N > 1, else stop = 0. -/
def Dequeue (s : Store) (sched : Sched) (r : DequeueReq) (uid : String) :
    RunRes Store (List String) :=
  let c0 := Cmd.zcard (queueKey r.ID)
  match sched.headD none with
  | some e => ⟨[], some (.store e), s, [c0]⟩
  | none =>
    if (s.queues r.ID).length = 0 then ⟨[], none, s, [c0]⟩
    else
      let rest :=
        if r.ReleaseAll then dequeueAllMembersByScore s sched.tail r.ID
        else if r.FirstDequeue = true ∧ r.FirstDequeueNumber > 1 then
          dequeueByRank s sched.tail r.ID (r.FirstDequeueNumber - 1).toNat uid
        else dequeueByRank s sched.tail r.ID 0 uid
      { rest with trace := c0 :: rest.trace }

/-- `PeekByQueueID` (queue/queue.go:166): ZRANGE 0 0; empty reply is
`ErrQueueEmpty`. -/
def PeekByQueueID (s : Store) (sched : Sched) (queueID : String) : RunRes Store String :=
  let c0 := Cmd.zrange (queueKey queueID) 0 0
  match sched.headD none with
  | some e => ⟨"", some (.store e), s, [c0]⟩
  | none =>
    match ((s.queues queueID).take 1).map Entry.member with
    | [] => ⟨"", some .queueEmpty, s, [c0]⟩
    | m :: _ => ⟨m, none, s, [c0]⟩

structure PositionReq where
  ID : String
  MemberID : String

/-- ZRANK over our sorted entry lists: the zero-based position of the member
in the stored ordering, `none` (a nil reply) when the member is absent. -/
def zrankList (m : String) : List Entry → Option Nat
  | [] => none
  | en :: l => if en.member = m then some 0 else (zrankList m l).map (· + 1)

/-- `GetPosition` (queue/queue.go:196): ZCARD, `ErrQueueEmpty` when 0, else
ZRANK; a nil reply (member absent) surfaces as `redis.Nil` with value 0. -/
def GetPosition (s : Store) (sched : Sched) (r : PositionReq) : RunRes Store Nat :=
  let c0 := Cmd.zcard (queueKey r.ID)
  match sched.headD none with
  | some e => ⟨0, some (.store e), s, [c0]⟩
  | none =>
    if (s.queues r.ID).length = 0 then ⟨0, some .queueEmpty, s, [c0]⟩
    else
      let c1 := Cmd.zrank (queueKey r.ID) r.MemberID
      match sched.tail.headD none with
      | some e => ⟨0, some (.store e), s, [c0, c1]⟩
      | none =>
        match zrankList r.MemberID (s.queues r.ID) with
        | none => ⟨0, some .redisNil, s, [c0, c1]⟩
        | some i => ⟨i, none, s, [c0, c1]⟩

structure DeleteReq where
  ID : String
  MemberID : String

/-- `Delete` (queue/queue.go:262): one ZREM; removing an absent member is a
successful no-op at the store. -/
def Delete (s : Store) (sched : Sched) (r : DeleteReq) : RunRes Store Unit :=
  let c0 := Cmd.zrem (queueKey r.ID) r.MemberID
  match sched.headD none with
  | some e => ⟨(), some (.store e), s, [c0]⟩
  | none => ⟨(), none,
      { s with queues := fun k =>
          if k = r.ID then (s.queues k).filter (fun en => en.member ≠ r.MemberID) else s.queues k },
      [c0]⟩

/-- Membership answered by the FT search on the dequeue index: some stored
audit document has this queue identifier and lists this member. -/
def hasDequeueRecord (s : Store) (queueID memberID : String) : Bool :=
  s.docs.any (fun kd => kd.2.id = queueID && kd.2.members.contains memberID)

/-- `IsDequeued` (queue/queue.go:277): EXISTS release:<id>; on a nil error
and an existing flag, return true at once.  A failed EXISTS is ignored
(`if err == nil && isRelease == 1`) and control falls through to the
FT search over the audit documents. -/
def IsDequeued (s : Store) (sched : Sched) (queueID memberID : String) : RunRes Store Bool :=
  let c0 := Cmd.existsKey (releaseKey queueID)
  if sched.headD none = none ∧ s.released queueID = true then ⟨true, none, s, [c0]⟩
  else
    let c1 := Cmd.ftsearch (idxKey "dequeue") queueID memberID
    match sched.tail.headD none with
    | some e => ⟨false, some (.store e), s, [c0, c1]⟩
    | none => ⟨hasDequeueRecord s queueID memberID, none, s, [c0, c1]⟩

/-- Failure-free Enqueue, kept for building concrete stores. -/
def enq (s : Store) (id m : String) (v : Rat) : Store :=
  (Enqueue s [] ⟨id, m, Float64.fin v⟩).store

/-- Failure-free single dequeue, kept for building concrete stores. -/
def deq1 (s : Store) (id uid : String) : Store :=
  (Dequeue s [] ⟨id, false, 0, false⟩ uid).store

end Queue

namespace ClearVariant

/-- The Redis state visible to the `Clear`-bearing variant of the package
(second file of `src/unnamed/part_001`): the live orderings (queue:),
the clear flags (clear:) and the per-queue sets of individually dequeued
members (dequeue:). -/
structure Store where
  queues : String → List Entry
  cleared : String → Bool
  dequeuedSet : String → List String

def emptyStore : Store := ⟨fun _ => [], fun _ => false, fun _ => []⟩

/-- `Clear` (src/unnamed/part_001:354): ZCARD first; an empty queue returns
nil at once (in particular without touching the clear flag); otherwise
ZREMRANGEBYSCORE -inf +inf empties the ordering and SET clear:<id> true
raises the flag. -/
def Clear (s : Store) (sched : Sched) (queueID : String) : RunRes Store Unit :=
  let c0 := Cmd.zcard (queueKey queueID)
  match sched.headD none with
  | some e => ⟨(), some (.store e), s, [c0]⟩
  | none =>
    if (s.queues queueID).length = 0 then ⟨(), none, s, [c0]⟩
    else
      let c1 := Cmd.zremrangebyscore (queueKey queueID) "-inf" "+inf"
      match sched.tail.headD none with
      | some e => ⟨(), some (.store e), s, [c0, c1]⟩
      | none =>
        let s1 : Store := { s with queues := fun k => if k = queueID then [] else s.queues k }
        let c2 := Cmd.setKey (clearKey queueID)
        match sched.tail.tail.headD none with
        | some e => ⟨(), some (.store e), s1, [c0, c1, c2]⟩
        | none => ⟨(), none,
            { s1 with cleared := fun k => if k = queueID then true else s1.cleared k },
            [c0, c1, c2]⟩

end ClearVariant

/-- A two-member queue built by two failure-free enqueues, for witnesses. -/
def sTwo : Queue.Store := Queue.enq (Queue.enq Queue.emptyStore "q" "a" 1) "q" "b" 2

/-- A store in which member m of queue q was enqueued, dequeued (so an audit
document records it) and then enqueued again, for the Delete counterexample. -/
def sAudited : Queue.Store :=
  Queue.enq (Queue.deq1 (Queue.enq Queue.emptyStore "q" "m" 1) "q" "u") "q" "m" 1

/-- A store holding one audit document for (q, m) and no release flag, for
the swallowed-failure counterexample. -/
def swallowStore : Queue.Store :=
  ⟨fun _ => [], fun _ => false, [("dequeue:u", ⟨"q", ["m"]⟩)]⟩

/-- A member's zrank is an actual position of that member in the listing. -/
theorem zrankList_get (m : String) (l : List Entry) (i : Nat)
    (h : Queue.zrankList m l = some i) : (l.map Entry.member).get? i = some m := by
  induction l generalizing i with
  | nil => cases h
  | cons a l ih =>
    by_cases hm : a.member = m
    · simp [Queue.zrankList, hm] at h
      subst h
      simp [hm]
    · simp [Queue.zrankList, hm] at h
      obtain ⟨j, hj, hij⟩ := h
      subst hij
      simpa using ih j hj

/-- An absent member has no zrank (the store replies nil). -/
theorem zrankList_eq_none (m : String) (l : List Entry)
    (h : m ∉ l.map Entry.member) : Queue.zrankList m l = none := by
  induction l with
  | nil => rfl
  | cons a l ih =>
    simp only [List.map_cons, List.mem_cons] at h
    push_neg at h
    have h1 : ¬a.member = m := fun hh => h.1 hh.symm
    simp [Queue.zrankList, h1, ih h.2]

/-- C1: with no store failure, IsDequeued never errors; its answer is the
release flag short-circuited with the audit-record membership, so a member
with neither flag nor record — in particular one never enqueued — gets
`false`, not an error; and when the flag is set only the EXISTS command is
issued, the per-member record is never consulted. -/
theorem isDequeued_follows_audit_algorithm (s : Queue.Store) (q m : String) :
    (Queue.IsDequeued s [] q m).err = none ∧
    (Queue.IsDequeued s [] q m).val = (s.released q || Queue.hasDequeueRecord s q m) ∧
    (Queue.IsDequeued s [] q m).trace =
      (if s.released q then [Cmd.existsKey (releaseKey q)]
       else [Cmd.existsKey (releaseKey q), Cmd.ftsearch (idxKey "dequeue") q m]) := by
  by_cases h : s.released q = true
  · simp [Queue.IsDequeued, h]
  · simp only [Bool.not_eq_true] at h
    simp [Queue.IsDequeued, h]

/-- C4: on a queue with zero entries, Peek fails with ErrQueueEmpty while
Dequeue — whatever its mode — succeeds with an empty result and leaves the
store untouched. -/
theorem peek_dequeue_empty_asymmetry (s : Queue.Store) (q : String)
    (he : s.queues q = []) :
    (Queue.PeekByQueueID s [] q).err = some QErr.queueEmpty ∧
    (Queue.PeekByQueueID s [] q).val = "" ∧
    (∀ (r : Queue.DequeueReq) (uid : String), r.ID = q →
      (Queue.Dequeue s [] r uid).err = none ∧
      (Queue.Dequeue s [] r uid).val = [] ∧
      (Queue.Dequeue s [] r uid).store = s) := by
  refine ⟨?_, ?_, ?_⟩
  · simp [Queue.PeekByQueueID, he]
  · simp [Queue.PeekByQueueID, he]
  · intro r uid hid
    subst hid
    simp [Queue.Dequeue, he]

theorem peek_dequeue_empty_asymmetry_witness :
    (Queue.PeekByQueueID Queue.emptyStore [] "q").err = some QErr.queueEmpty ∧
    (Queue.Dequeue Queue.emptyStore [] ⟨"q", false, 0, false⟩ "u").err = none := by
  refine ⟨(peek_dequeue_empty_asymmetry Queue.emptyStore "q" rfl).1, ?_⟩
  exact ((peek_dequeue_empty_asymmetry Queue.emptyStore "q" rfl).2.2 ⟨"q", false, 0, false⟩ "u" rfl).1

/-- C7 (amended): Clear never fails absent a store failure and empties the
live ordering, but it sets the clear flag only when the queue was non-empty:
on an already-empty queue it early-returns without (re)asserting the flag,
so after Clear the flag reads (previous flag) OR (queue was non-empty).
A second Clear right after is a complete no-op, so Clear is idempotent. -/
theorem clear_spec (s : ClearVariant.Store) (q : String) :
    (ClearVariant.Clear s [] q).err = none ∧
    (ClearVariant.Clear s [] q).store.queues q = [] ∧
    (ClearVariant.Clear s [] q).store.cleared q = (s.cleared q || !(s.queues q).isEmpty) ∧
    (ClearVariant.Clear s [] q).store.dequeuedSet = s.dequeuedSet ∧
    (ClearVariant.Clear (ClearVariant.Clear s [] q).store [] q).err = none ∧
    (ClearVariant.Clear (ClearVariant.Clear s [] q).store [] q).store =
      (ClearVariant.Clear s [] q).store := by
  by_cases h : (s.queues q).length = 0
  · have he : s.queues q = [] := List.length_eq_zero.mp h
    refine ⟨?_, ?_, ?_, ?_, ?_, ?_⟩ <;> simp [ClearVariant.Clear, he]
  · have he : ¬s.queues q = [] := fun hh => h (by simp [hh])
    refine ⟨?_, ?_, ?_, ?_, ?_, ?_⟩ <;>
      simp [ClearVariant.Clear, h, List.isEmpty_iff, he]

/-- C7 counterexample: a successful Clear of an empty queue leaves the
fully-released flag unset, contradicting the claim that the flag is set
after every successful Clear. -/
theorem clear_empty_does_not_set_flag :
    (ClearVariant.Clear ClearVariant.emptyStore [] "q").err = none ∧
    (ClearVariant.Clear ClearVariant.emptyStore [] "q").store.cleared "q" = false := by
  exact ⟨rfl, rfl⟩

/-- C2: Dequeue in release-all mode on a non-empty queue reads the full
ordering (ZRANGE), removes every entry, marks the release flag, and returns
the full member listing in ascending-score order; afterwards IsDequeued
answers true for every member whatsoever — so for every member that was
ever in that queue. -/
theorem dequeue_releaseAll_spec (s : Queue.Store) (q uid : String) (fd : Bool) (n : Int)
    (hne : s.queues q ≠ []) (hs : sortedByScore (s.queues q)) :
    (Queue.Dequeue s [] ⟨q, fd, n, true⟩ uid).err = none ∧
    membersAscending (s.queues q) (Queue.Dequeue s [] ⟨q, fd, n, true⟩ uid).val ∧
    (Queue.Dequeue s [] ⟨q, fd, n, true⟩ uid).store.queues q = [] ∧
    (Queue.Dequeue s [] ⟨q, fd, n, true⟩ uid).store.released q = true ∧
    (Queue.Dequeue s [] ⟨q, fd, n, true⟩ uid).trace =
      [Cmd.zcard (queueKey q), Cmd.zrange (queueKey q) 0 (-1),
       Cmd.zremrangebyscore (queueKey q) "-inf" "+inf", Cmd.setKey (releaseKey q)] ∧
    (∀ m, (Queue.IsDequeued (Queue.Dequeue s [] ⟨q, fd, n, true⟩ uid).store [] q m).err = none ∧
          (Queue.IsDequeued (Queue.Dequeue s [] ⟨q, fd, n, true⟩ uid).store [] q m).val = true) := by
  have hlen : ¬(s.queues q).length = 0 := by simpa [List.length_eq_zero] using hne
  refine ⟨?_, ⟨hs, ?_⟩, ?_, ?_, ?_, ?_⟩ <;>
    simp [Queue.Dequeue, Queue.dequeueAllMembersByScore, Queue.IsDequeued, hlen]

theorem dequeue_releaseAll_spec_witness :
    sTwo.queues "q" ≠ [] ∧ sortedByScore (sTwo.queues "q") ∧
    (Queue.Dequeue sTwo [] ⟨"q", false, 0, true⟩ "u").err = none :=
  ⟨by decide, by decide,
    (dequeue_releaseAll_spec sTwo "q" "u" false 0 (by decide) (by decide)).1⟩

/-- C3: Dequeue in First-N mode (N > 1) removes and returns the first
min(N, K) entries in ascending-score order, leaving the rest; when K ≤ N the
queue is left empty; every removed member is recorded in the audit document
the operation writes; and any ranked request that is not First-N with N > 1
(First-N absent or N ≤ 1, i.e. not both FirstDequeue and a number above 1)
runs exactly as First-1. -/
theorem dequeue_firstN_spec (s : Queue.Store) (q uid : String) (n : Int)
    (hs : sortedByScore (s.queues q)) (hn : 1 < n) :
    (Queue.Dequeue s [] ⟨q, true, n, false⟩ uid).err = none ∧
    membersAscending ((s.queues q).take n.toNat)
      (Queue.Dequeue s [] ⟨q, true, n, false⟩ uid).val ∧
    (Queue.Dequeue s [] ⟨q, true, n, false⟩ uid).val.length =
      min n.toNat (s.queues q).length ∧
    (Queue.Dequeue s [] ⟨q, true, n, false⟩ uid).store.queues q =
      (s.queues q).drop n.toNat ∧
    ((s.queues q).length ≤ n.toNat →
      (Queue.Dequeue s [] ⟨q, true, n, false⟩ uid).store.queues q = []) ∧
    (∀ m, m ∈ (Queue.Dequeue s [] ⟨q, true, n, false⟩ uid).val →
      Queue.hasDequeueRecord (Queue.Dequeue s [] ⟨q, true, n, false⟩ uid).store q m = true) ∧
    (∀ (r : Queue.DequeueReq), r.ReleaseAll = false →
      ¬(r.FirstDequeue = true ∧ r.FirstDequeueNumber > 1) →
      Queue.Dequeue s [] r uid = Queue.Dequeue s [] ⟨r.ID, true, 1, false⟩ uid) := by
  have hstop : (n - 1).toNat + 1 = n.toNat := by omega
  have hstop2 : n.toNat - 1 + 1 = n.toNat := by omega
  have hlast : ∀ (r : Queue.DequeueReq), r.ReleaseAll = false →
      ¬(r.FirstDequeue = true ∧ r.FirstDequeueNumber > 1) →
      Queue.Dequeue s [] r uid = Queue.Dequeue s [] ⟨r.ID, true, 1, false⟩ uid := by
    intro r hr hnot
    by_cases hl : (s.queues r.ID).length = 0 <;>
      simp [Queue.Dequeue, Queue.dequeueByRank, hr, hnot, hl]
  by_cases hl : (s.queues q).length = 0
  · have he : s.queues q = [] := List.length_eq_zero.mp hl
    refine ⟨?_, ⟨?_, ?_⟩, ?_, ?_, ?_, ?_, hlast⟩ <;>
      simp [Queue.Dequeue, he, sortedByScore]
  · refine ⟨?_, ⟨?_, ?_⟩, ?_, ?_, ?_, ?_, hlast⟩
    · simp [Queue.Dequeue, Queue.dequeueByRank, hl, hn]
    · exact List.Pairwise.sublist (List.take_sublist _ _) hs
    · simp [Queue.Dequeue, Queue.dequeueByRank, hl, hn, hstop, hstop2]
    · simp [Queue.Dequeue, Queue.dequeueByRank, hl, hn, hstop, hstop2]
    · simp [Queue.Dequeue, Queue.dequeueByRank, hl, hn, hstop, hstop2]
    · intro hle
      simp [Queue.Dequeue, Queue.dequeueByRank, hl, hn, hstop, hstop2, List.drop_eq_nil_of_le hle]
    · intro m hm
      simp [Queue.Dequeue, Queue.dequeueByRank, hl, hn, hstop, hstop2] at hm ⊢
      simp [Queue.hasDequeueRecord, hm]

theorem dequeue_firstN_spec_witness :
    sortedByScore (sTwo.queues "q") ∧ (1 : Int) < 5 ∧
    (Queue.Dequeue sTwo [] ⟨"q", true, 5, false⟩ "u").err = none :=
  ⟨by decide, by decide,
    (dequeue_firstN_spec sTwo "q" "u" 5 (by decide) (by decide)).1⟩

/-- C5: GetPosition distinguishes its error conditions: an empty queue gives
ErrQueueEmpty; a non-empty queue with the member absent gives the distinct
redis.Nil condition (never ErrQueueEmpty and never a clean rank 0); a present
member yields its zero-based rank in the stored ascending ordering with no
error. -/
theorem getPosition_error_discipline (s : Queue.Store) (q m : String) :
    (s.queues q = [] → (Queue.GetPosition s [] ⟨q, m⟩).err = some QErr.queueEmpty) ∧
    (s.queues q ≠ [] → m ∉ (s.queues q).map Entry.member →
      (Queue.GetPosition s [] ⟨q, m⟩).err = some QErr.redisNil ∧
      (Queue.GetPosition s [] ⟨q, m⟩).err ≠ some QErr.queueEmpty ∧
      (Queue.GetPosition s [] ⟨q, m⟩).err ≠ none) ∧
    (∀ i, Queue.zrankList m (s.queues q) = some i →
      (Queue.GetPosition s [] ⟨q, m⟩).err = none ∧
      (Queue.GetPosition s [] ⟨q, m⟩).val = i ∧
      ((s.queues q).map Entry.member).get? i = some m) := by
  refine ⟨?_, ?_, ?_⟩
  · intro he
    simp [Queue.GetPosition, he]
  · intro hne hab
    have hlen : ¬(s.queues q).length = 0 := by simpa [List.length_eq_zero] using hne
    have hnone := zrankList_eq_none m (s.queues q) hab
    refine ⟨?_, ?_, ?_⟩ <;> simp [Queue.GetPosition, hlen, hnone]
  · intro i hi
    have hne : s.queues q ≠ [] := by
      intro he
      rw [he] at hi
      cases hi
    have hlen : ¬(s.queues q).length = 0 := by simpa [List.length_eq_zero] using hne
    refine ⟨?_, ?_, zrankList_get m (s.queues q) i hi⟩ <;>
      simp [Queue.GetPosition, hlen, hi]

/-- C6 (amended): Delete removes the member from the live ordering if present
and is a successful no-op if absent, and it never touches audit state — the
release flag and the audit documents are unchanged and IsDequeued gives the
same verdict after Delete as before it.  Consequently IsDequeued is false for
the deleted member when the flag is unset AND no earlier ranked dequeue
recorded that member individually; an existing individual record keeps
answering true, which is the one exception the original claim missed. -/
theorem delete_writes_no_audit_record (s : Queue.Store) (r : Queue.DeleteReq) :
    (Queue.Delete s [] r).err = none ∧
    (Queue.Delete s [] r).store.queues r.ID =
      (s.queues r.ID).filter (fun en => en.member ≠ r.MemberID) ∧
    (∀ k, k ≠ r.ID → (Queue.Delete s [] r).store.queues k = s.queues k) ∧
    (Queue.Delete s [] r).store.released = s.released ∧
    (Queue.Delete s [] r).store.docs = s.docs ∧
    (∀ q m, (Queue.IsDequeued (Queue.Delete s [] r).store [] q m).val =
              (Queue.IsDequeued s [] q m).val ∧
            (Queue.IsDequeued (Queue.Delete s [] r).store [] q m).err =
              (Queue.IsDequeued s [] q m).err) ∧
    (s.released r.ID = false → Queue.hasDequeueRecord s r.ID r.MemberID = false →
      (Queue.IsDequeued (Queue.Delete s [] r).store [] r.ID r.MemberID).val = false) := by
  refine ⟨rfl, ?_, ?_, rfl, rfl, ?_, ?_⟩
  · simp [Queue.Delete]
  · intro k hk
    simp [Queue.Delete, hk]
  · intro q m
    by_cases h : s.released q = true <;>
      simp [Queue.Delete, Queue.IsDequeued, Queue.hasDequeueRecord, h]
  · intro hrel hrec
    simp [Queue.Delete, Queue.IsDequeued, Queue.hasDequeueRecord, hrel] at hrec ⊢
    exact hrec

/-- C6 counterexample: enqueue m, dequeue it (a ranked dequeue records it),
enqueue it again, then Delete it.  The release flag is unset, Delete
succeeded and removed m from the live ordering, yet IsDequeued still answers
true — refuting the claim that after Delete it is false unless a prior
release-all set the flag. -/
theorem delete_then_isDequeued_true_counterexample :
    sAudited.released "q" = false ∧
    (Queue.Delete sAudited [] ⟨"q", "m"⟩).err = none ∧
    (Queue.Delete sAudited [] ⟨"q", "m"⟩).store.queues "q" = [] ∧
    (Queue.IsDequeued (Queue.Delete sAudited [] ⟨"q", "m"⟩).store [] "q" "m").val = true := by
  refine ⟨rfl, rfl, by decide, by decide⟩

/-- C8 (amended): no validation happens at the service boundary.  Enqueue
always issues its ZADD store command, whatever the input: an empty queue or
member identifier is simply accepted (the command succeeds and the store is
modified), and a non-finite (NaN) score is rejected by the store itself after
the command was issued, surfacing as the store's own error — there is no
InvalidRequest outcome issued before store commands. -/
theorem enqueue_no_boundary_validation (s : Queue.Store) (r : Queue.EnqueueReq) :
    (Queue.Enqueue s [] r).trace = [Cmd.zadd (queueKey r.ID) r.MemberID r.Score] ∧
    (r.Score = Float64.nan →
      (Queue.Enqueue s [] r).err = some (QErr.store "value is not a valid float") ∧
      (Queue.Enqueue s [] r).store = s) ∧
    (∀ v, r.Score = Float64.fin v → (Queue.Enqueue s [] r).err = none) := by
  refine ⟨?_, ?_, ?_⟩
  · cases h : r.Score <;> simp [Queue.Enqueue, h]
  · intro h
    simp [Queue.Enqueue, h]
  · intro v h
    simp [Queue.Enqueue, h]

/-- C8 counterexample: an Enqueue whose queue identifier is empty (malformed
input per the claim) issues its store command, succeeds with no error at all
— no InvalidRequest — and leaves the store modified, not untouched. -/
theorem enqueue_empty_identifier_counterexample :
    (Queue.Enqueue Queue.emptyStore [] ⟨"", "m", Float64.fin 1⟩).err = none ∧
    (Queue.Enqueue Queue.emptyStore [] ⟨"", "m", Float64.fin 1⟩).trace ≠ [] ∧
    (Queue.Enqueue Queue.emptyStore [] ⟨"", "m", Float64.fin 1⟩).store.queues "" =
      [⟨"m", Float64.fin 1⟩] := by
  refine ⟨rfl, by decide, by decide⟩

/-- C9 (amended): a store-command failure is surfaced to the caller raw — the
same error value the store produced, with no operation name or queue
identifier added, and the failed command is issued exactly once (no internal
retry) — EXCEPT the release-flag EXISTS check inside IsDequeued, whose
failure is silently swallowed: execution falls through to the audit search
and, when that succeeds, IsDequeued returns its verdict with a nil error. -/
theorem store_failures_raw_except_isDequeued_flag_check
    (s : Queue.Store) (q m e : String) (r : Queue.EnqueueReq) (dr : Queue.DequeueReq)
    (uid : String) :
    ((Queue.Enqueue s [some e] r).err = some (QErr.store e) ∧
     (Queue.Enqueue s [some e] r).trace = [Cmd.zadd (queueKey r.ID) r.MemberID r.Score] ∧
     (Queue.Enqueue s [some e] r).store = s) ∧
    ((Queue.Dequeue s [some e] dr uid).err = some (QErr.store e) ∧
     (Queue.Dequeue s [some e] dr uid).trace = [Cmd.zcard (queueKey dr.ID)]) ∧
    ((Queue.IsDequeued s [some e] q m).err = none ∧
     (Queue.IsDequeued s [some e] q m).val = Queue.hasDequeueRecord s q m) := by
  refine ⟨⟨rfl, rfl, rfl⟩, ⟨rfl, rfl⟩, ?_, ?_⟩ <;> simp [Queue.IsDequeued]

/-- C9 counterexample: when the EXISTS on the release flag fails with a
transport error and the member has an audit record, IsDequeued returns
(true, nil): the store failure was swallowed, not surfaced. -/
theorem isDequeued_swallowed_failure_counterexample :
    (Queue.IsDequeued swallowStore [some "connection refused"] "q" "m").err = none ∧
    (Queue.IsDequeued swallowStore [some "connection refused"] "q" "m").val = true := by
  refine ⟨by decide, by decide⟩

/-- C10: a ranked Dequeue is not atomic on error.  If the audit-document
write (the fourth store command, after ZCARD, ZRANGE and ZREMRANGEBYRANK)
fails on a non-empty queue, Dequeue returns the empty slice together with the
store's error, the first min(N, K) entries are already gone from the live
ordering and are not restored, and the audit documents are exactly as before
— the removed members appear neither in the result nor in any new audit
record. -/
theorem dequeue_rank_not_atomic_on_audit_failure (s : Queue.Store) (q uid e : String)
    (n : Int) (hne : s.queues q ≠ []) (hn : 1 < n) :
    (Queue.Dequeue s [none, none, none, some e] ⟨q, true, n, false⟩ uid).val = [] ∧
    (Queue.Dequeue s [none, none, none, some e] ⟨q, true, n, false⟩ uid).err =
      some (QErr.store e) ∧
    (Queue.Dequeue s [none, none, none, some e] ⟨q, true, n, false⟩ uid).store.queues q =
      (s.queues q).drop n.toNat ∧
    (Queue.Dequeue s [none, none, none, some e] ⟨q, true, n, false⟩ uid).store.docs =
      s.docs ∧
    (∀ m, Queue.hasDequeueRecord
        (Queue.Dequeue s [none, none, none, some e] ⟨q, true, n, false⟩ uid).store q m =
      Queue.hasDequeueRecord s q m) ∧
    (∀ m, m ∈ ((s.queues q).take n.toNat).map Entry.member →
      m ∉ (Queue.Dequeue s [none, none, none, some e] ⟨q, true, n, false⟩ uid).val) := by
  have hlen : ¬(s.queues q).length = 0 := by simpa [List.length_eq_zero] using hne
  have hstop2 : n.toNat - 1 + 1 = n.toNat := by omega
  refine ⟨?_, ?_, ?_, ?_, ?_, ?_⟩ <;>
    simp [Queue.Dequeue, Queue.dequeueByRank, Queue.hasDequeueRecord, hlen, hn, hstop2]

theorem dequeue_rank_not_atomic_on_audit_failure_witness :
    sTwo.queues "q" ≠ [] ∧ (1 : Int) < 2 ∧
    (Queue.Dequeue sTwo [none, none, none, some "boom"] ⟨"q", true, 2, false⟩ "u").err =
      some (QErr.store "boom") :=
  ⟨by decide, by decide,
    (dequeue_rank_not_atomic_on_audit_failure sTwo "q" "u" "boom" 2 (by decide)
      (by decide)).2.1⟩
